import Mathlib

/-!
Shallow embedding of the employee record store implemented by
`src/server.py` and `src/src/server.py`.

Both files expose the same six operations (add, get, update, delete,
list, list ids) over a single JSON file holding a list of employee
records.  The two copies share their tool bodies verbatim and differ
only in `read_db` (the second copy catches parse errors and non-list
top-level values) and in the path-selection logic (not modelled: it
only chooses where the file lives).

Modelling choices:
  * an employee record is a structure with the five JSON fields;
    `salary` is a rational — the Python code only stores and compares
    salaries, it never does float arithmetic on them;
  * the backing file is modelled by `FileContent`, which distinguishes
    the states the servers' logic can distinguish: absent, a parsed
    list of records, a parsed non-list value (represented concretely by
    the empty JSON object), and unparsable content;
  * each operation is a function from the file state and its arguments
    to a result paired with the file state afterwards; an operation
    that raises leaves the file unchanged (no write happened), which
    the `exn` result constructors record;
  * `json.dumps` serialization of a found record or of the whole list
    is kept as the record / list itself; error and success message
    strings are modelled exactly.
-/

set_option autoImplicit false

namespace EmployeeServer

/-- One employee record, with the field names used in the JSON file:
`id`, `name`, `job_role`, `department`, `salary`. -/
structure Employee where
  id : Int
  name : String
  job_role : String
  department : String
  salary : Rat
deriving DecidableEq, Repr

/-- States of the backing JSON file that the servers' logic can
distinguish.  `emptyObject` is the file whose content parses to the
empty JSON object — a concrete representative of "parses, but the
top-level value is not a sequence". -/
inductive FileContent where
  | absent
  | goodList (employees : List Employee)
  | emptyObject
  | corrupt
deriving DecidableEq, Repr

/-- Outcome of a `read_db` call.  `okEmptyObject` is `json.load`
returning the empty JSON object (a non-list value, possible only for
the first copy, which does not guard with `isinstance`); `raised` is a
`json.JSONDecodeError` propagating out of `read_db`. -/
inductive ReadOutcome where
  | ok (employees : List Employee)
  | okEmptyObject
  | raised
deriving DecidableEq, Repr

/-- `read_db` of `src/server.py`: returns `[]` when the file is absent,
otherwise returns whatever `json.load` yields, letting parse errors
propagate and non-list values through. -/
def read_db : FileContent → ReadOutcome
  | .absent => .ok []
  | .goodList l => .ok l
  | .emptyObject => .okEmptyObject
  | .corrupt => .raised

/-- `read_db` of `src/src/server.py`: additionally catches
`json.JSONDecodeError` / `ValueError` and replaces any top-level value
that is not a list by `[]`. -/
def read_db_v2 : FileContent → ReadOutcome
  | .absent => .ok []
  | .goodList l => .ok l
  | .emptyObject => .ok []
  | .corrupt => .ok []

/-- `write_db`: replaces the whole file with the serialized list. -/
def write_db (data : List Employee) : FileContent := .goodList data

/-- Python's `max(l, default=0)` on a list of integers. -/
def max_default0 (l : List Int) : Int :=
  match l with
  | [] => 0
  | x :: xs => xs.foldl max x

/-- Body of `add_employee` after `read_db` succeeded with a list:
`new_id = max([emp["id"] for emp in employees], default=0) + 1`, the
new record is appended and the full list is written back.  Returns the
message and the list passed to `write_db`. -/
def add_employee_body (employees : List Employee)
    (name job_role department : String) (salary : Rat) :
    String × List Employee :=
  let new_id := max_default0 (employees.map Employee.id) + 1
  let new_employee : Employee :=
    ⟨new_id, name, job_role, department, salary⟩
  (s!"Employee added successfully with ID: {new_id}",
   employees ++ [new_employee])

/-- Result of `get_employee`: the found record (its `json.dumps`
serialization is kept as the record itself), the not-found message, or
an exception propagating out of `read_db`. -/
inductive GetResult where
  | found (e : Employee)
  | notFound (msg : String)
  | exn
deriving DecidableEq, Repr

/-- Body of `get_employee` after `read_db` succeeded with a list:
`next((e for e in employees if e["id"] == employee_id), None)`; a found
record is a non-empty dict, hence truthy, so `if not employee` is
exactly the `none` case. -/
def get_employee_body (employees : List Employee) (employee_id : Int) :
    GetResult :=
  match employees.find? (fun e => e.id == employee_id) with
  | some e => .found e
  | none => .notFound s!"Error: Employee with ID {employee_id} not found."

/-- The in-place mutation `emp.update({...})`: replaces the four
mutable fields and keeps `id`. -/
def updateFields (emp : Employee) (name job_role department : String)
    (salary : Rat) : Employee :=
  { emp with
      name := name
      job_role := job_role
      department := department
      salary := salary }

/-- Body of `update_employee` after `read_db` succeeded with a list:
the `for` loop mutates the first record whose `id` matches, writes the
list and returns; records after the first match are never inspected.
The second component is the list passed to `write_db`, or `none` when
the loop falls through without writing. -/
def update_employee_body (employees : List Employee) (employee_id : Int)
    (name job_role department : String) (salary : Rat) :
    String × Option (List Employee) :=
  match employees with
  | [] => (s!"Error: Employee with ID {employee_id} not found.", none)
  | emp :: rest =>
    if emp.id == employee_id then
      (s!"Employee {employee_id} updated successfully.",
       some (updateFields emp name job_role department salary :: rest))
    else
      match update_employee_body rest employee_id name job_role department salary with
      | (msg, some rest2) => (msg, some (emp :: rest2))
      | (msg, none) => (msg, none)

/-- Body of `delete_employee` after `read_db` succeeded with a list:
`updated_list = [e for e in employees if e["id"] != employee_id]`, and
the not-found case is detected by `len(updated_list) == len(employees)`.
The second component is the list passed to `write_db`, or `none` when
nothing is written. -/
def delete_employee_body (employees : List Employee) (employee_id : Int) :
    String × Option (List Employee) :=
  let updated_list := employees.filter (fun e => e.id != employee_id)
  if updated_list.length == employees.length then
    (s!"Error: Employee with ID {employee_id} not found.", none)
  else
    (s!"Employee {employee_id} deleted successfully.", some updated_list)

/-- Result of an operation that returns a message string. -/
inductive MsgResult where
  | ok (msg : String)
  | exn
deriving DecidableEq, Repr

/-- Result of `list_employees`: the serialized list is kept as the
list itself; `okEmptyObject` is `json.dumps` of the parsed non-list
value succeeding (first copy only). -/
inductive ListResult where
  | ok (employees : List Employee)
  | okEmptyObject
  | exn
deriving DecidableEq, Repr

/-- Result of the `employees://ids` resource. -/
inductive IdsResult where
  | ok (ids : List Int)
  | exn
deriving DecidableEq, Repr

/-! ### The operations of `src/server.py` (first copy)

On `emptyObject` content, `read_db` hands the tool body the empty JSON
object; iterating it yields nothing, so comprehensions give `[]` and
the `for` loops never run, while `employees.append(...)` raises
`AttributeError` and `json.dumps(employees)` serializes the non-list
value.  On `corrupt` content `json.load` raises inside `read_db`, so
every operation fails before writing anything. -/

/-- `add_employee` of `src/server.py`. -/
def add_employee (fs : FileContent) (name job_role department : String)
    (salary : Rat) : MsgResult × FileContent :=
  match read_db fs with
  | .ok employees =>
    let r := add_employee_body employees name job_role department salary
    (.ok r.1, write_db r.2)
  | .okEmptyObject => (.exn, fs)
  | .raised => (.exn, fs)

/-- `get_employee` of `src/server.py`.  Never calls `write_db`. -/
def get_employee (fs : FileContent) (employee_id : Int) :
    GetResult × FileContent :=
  match read_db fs with
  | .ok employees => (get_employee_body employees employee_id, fs)
  | .okEmptyObject =>
    (.notFound s!"Error: Employee with ID {employee_id} not found.", fs)
  | .raised => (.exn, fs)

/-- `update_employee` of `src/server.py`. -/
def update_employee (fs : FileContent) (employee_id : Int)
    (name job_role department : String) (salary : Rat) :
    MsgResult × FileContent :=
  match read_db fs with
  | .ok employees =>
    match update_employee_body employees employee_id name job_role department salary with
    | (msg, some es) => (.ok msg, write_db es)
    | (msg, none) => (.ok msg, fs)
  | .okEmptyObject =>
    (.ok s!"Error: Employee with ID {employee_id} not found.", fs)
  | .raised => (.exn, fs)

/-- `delete_employee` of `src/server.py`. -/
def delete_employee (fs : FileContent) (employee_id : Int) :
    MsgResult × FileContent :=
  match read_db fs with
  | .ok employees =>
    match delete_employee_body employees employee_id with
    | (msg, some es) => (.ok msg, write_db es)
    | (msg, none) => (.ok msg, fs)
  | .okEmptyObject =>
    (.ok s!"Error: Employee with ID {employee_id} not found.", fs)
  | .raised => (.exn, fs)

/-- `list_employees` of `src/server.py`.  Never calls `write_db`. -/
def list_employees (fs : FileContent) : ListResult × FileContent :=
  match read_db fs with
  | .ok employees => (.ok employees, fs)
  | .okEmptyObject => (.okEmptyObject, fs)
  | .raised => (.exn, fs)

/-- `get_employee_ids` of `src/server.py`.  Never calls `write_db`. -/
def get_employee_ids (fs : FileContent) : IdsResult × FileContent :=
  match read_db fs with
  | .ok employees => (.ok (employees.map Employee.id), fs)
  | .okEmptyObject => (.ok [], fs)
  | .raised => (.ok [], fs)

/-! ### The operations of `src/src/server.py` (second copy)

The tool bodies are textually identical to the first copy's; only
`read_db` differs (it never yields `okEmptyObject` or `raised`), and
`get_employee_ids` guards each element with
`isinstance(emp, dict) and "id" in emp` — a guard that is constantly
true for well-formed records, modelled as a filter by the constantly
true predicate. -/

/-- `add_employee` of `src/src/server.py`. -/
def add_employee_v2 (fs : FileContent) (name job_role department : String)
    (salary : Rat) : MsgResult × FileContent :=
  match read_db_v2 fs with
  | .ok employees =>
    let r := add_employee_body employees name job_role department salary
    (.ok r.1, write_db r.2)
  | .okEmptyObject => (.exn, fs)
  | .raised => (.exn, fs)

/-- `get_employee` of `src/src/server.py`. -/
def get_employee_v2 (fs : FileContent) (employee_id : Int) :
    GetResult × FileContent :=
  match read_db_v2 fs with
  | .ok employees => (get_employee_body employees employee_id, fs)
  | .okEmptyObject =>
    (.notFound s!"Error: Employee with ID {employee_id} not found.", fs)
  | .raised => (.exn, fs)

/-- `update_employee` of `src/src/server.py`. -/
def update_employee_v2 (fs : FileContent) (employee_id : Int)
    (name job_role department : String) (salary : Rat) :
    MsgResult × FileContent :=
  match read_db_v2 fs with
  | .ok employees =>
    match update_employee_body employees employee_id name job_role department salary with
    | (msg, some es) => (.ok msg, write_db es)
    | (msg, none) => (.ok msg, fs)
  | .okEmptyObject =>
    (.ok s!"Error: Employee with ID {employee_id} not found.", fs)
  | .raised => (.exn, fs)

/-- `delete_employee` of `src/src/server.py`. -/
def delete_employee_v2 (fs : FileContent) (employee_id : Int) :
    MsgResult × FileContent :=
  match read_db_v2 fs with
  | .ok employees =>
    match delete_employee_body employees employee_id with
    | (msg, some es) => (.ok msg, write_db es)
    | (msg, none) => (.ok msg, fs)
  | .okEmptyObject =>
    (.ok s!"Error: Employee with ID {employee_id} not found.", fs)
  | .raised => (.exn, fs)

/-- `list_employees` of `src/src/server.py`. -/
def list_employees_v2 (fs : FileContent) : ListResult × FileContent :=
  match read_db_v2 fs with
  | .ok employees => (.ok employees, fs)
  | .okEmptyObject => (.okEmptyObject, fs)
  | .raised => (.exn, fs)

/-- `get_employee_ids` of `src/src/server.py`. -/
def get_employee_ids_v2 (fs : FileContent) : IdsResult × FileContent :=
  match read_db_v2 fs with
  | .ok employees =>
    (.ok ((employees.filter (fun _ => true)).map Employee.id), fs)
  | .okEmptyObject => (.ok [], fs)
  | .raised => (.ok [], fs)

/-! ### Helper lemmas -/

theorem foldl_max_init_le (l : List Int) (b : Int) : b ≤ l.foldl max b := by
  induction l generalizing b with
  | nil => simp
  | cons x xs ih => exact le_trans (le_max_left b x) (ih (max b x))

theorem mem_le_foldl_max (l : List Int) (b x : Int) (h : x ∈ l) :
    x ≤ l.foldl max b := by
  induction l generalizing b with
  | nil => cases h
  | cons y ys ih =>
    rcases List.mem_cons.mp h with rfl | hmem
    · exact le_trans (le_max_right b x) (foldl_max_init_le ys (max b x))
    · exact ih (max b y) hmem

theorem le_max_default0 (l : List Int) (x : Int) (h : x ∈ l) :
    x ≤ max_default0 l := by
  cases l with
  | nil => cases h
  | cons y ys =>
    rcases List.mem_cons.mp h with rfl | hmem
    · exact foldl_max_init_le ys x
    · exact mem_le_foldl_max ys y x hmem

theorem new_id_not_mem (l : List Int) : max_default0 l + 1 ∉ l := by
  intro hmem
  have := le_max_default0 l _ hmem
  omega

/-- `List.find?` returns `some e` exactly when `e` sits at some index
`k`, satisfies the predicate, and every earlier element fails it. -/
theorem find_first_iff {α : Type} (p : α → Bool) (l : List α) (e : α) :
    l.find? p = some e ↔
      ∃ (k : Nat) (hk : k < l.length), l.get ⟨k, hk⟩ = e ∧ p e = true ∧
        ∀ (m : Nat) (hm : m < l.length), m < k →
          p (l.get ⟨m, hm⟩) = false := by
  induction l with
  | nil => simp
  | cons x rest ih =>
    cases hx : p x with
    | true =>
      rw [List.find?_cons_of_pos rest hx]
      constructor
      · intro h
        injection h with h
        subst h
        exact ⟨0, by simp, rfl, hx, fun m hm hm0 => absurd hm0 (Nat.not_lt_zero m)⟩
      · rintro ⟨k, hk, hget, hpe, hfirst⟩
        cases k with
        | zero =>
          rw [← hget]
          rfl
        | succ k' =>
          have h0 := hfirst 0 (by simp) (Nat.succ_pos k')
          simp only [List.get] at h0
          rw [hx] at h0
          cases h0
    | false =>
      rw [List.find?_cons_of_neg rest (by simp [hx])]
      rw [ih]
      constructor
      · rintro ⟨k, hk, hget, hpe, hfirst⟩
        refine ⟨k + 1, Nat.succ_lt_succ hk, by simpa using hget, hpe, ?_⟩
        intro m hm hmk
        cases m with
        | zero => simpa using hx
        | succ m' =>
          have := hfirst m' (Nat.lt_of_succ_lt_succ hm) (Nat.lt_of_succ_lt_succ hmk)
          simpa using this
      · rintro ⟨k, hk, hget, hpe, hfirst⟩
        cases k with
        | zero =>
          exfalso
          simp only [List.get] at hget
          rw [hget, hpe] at hx
          cases hx
        | succ k' =>
          refine ⟨k', Nat.lt_of_succ_lt_succ hk, by simpa using hget, hpe, ?_⟩
          intro m hm hmk
          have := hfirst (m + 1) (Nat.succ_lt_succ hm) (Nat.succ_lt_succ hmk)
          simpa using this

/-! ### Claims -/

/-- C1 (failing input for the claimed validation): the spec and the
unused pydantic `Employee` model require non-empty `name` and positive
`salary`, but neither copy of `add_employee` validates anything:
`create(name="", job_role="x", department="y", salary=50000.0)` on an
empty collection succeeds with id 1 and appends the record, in both
copies, instead of failing with `ValidationError` and leaving the
collection unchanged. -/
theorem add_employee_skips_validation :
    add_employee (.goodList []) "" "x" "y" 50000 =
      (.ok "Employee added successfully with ID: 1",
       .goodList [⟨1, "", "x", "y", 50000⟩]) ∧
    add_employee_v2 (.goodList []) "" "x" "y" 50000 =
      (.ok "Employee added successfully with ID: 1",
       .goodList [⟨1, "", "x", "y", 50000⟩]) := by
  constructor <;> rfl

/-- C4: `add_employee` assigns the id `max(existing_ids, default=0) + 1`
(so 1 on the empty collection), appends the new record at the end,
persists the full collection, returns the id in its message, and the
new id is never an id present before the call. -/
theorem add_employee_fresh_id (db : List Employee)
    (name job_role department : String) (salary : Rat) :
    (add_employee (.goodList db) name job_role department salary =
      (.ok s!"Employee added successfully with ID: {max_default0 (db.map Employee.id) + 1}",
       .goodList (db ++
         [⟨max_default0 (db.map Employee.id) + 1, name, job_role, department, salary⟩]))) ∧
    max_default0 (db.map Employee.id) + 1 ∉ db.map Employee.id ∧
    (db = [] → max_default0 (db.map Employee.id) + 1 = 1) := by
  refine ⟨rfl, new_id_not_mem _, ?_⟩
  rintro rfl
  rfl

/-- Witness for C4 at a concrete state: one employee with id 5, the new
id is 6 and is fresh. -/
theorem add_employee_fresh_id_witness :
    (add_employee (.goodList [⟨5, "a", "r", "d", 1⟩]) "b" "s" "e" 2 =
      (.ok "Employee added successfully with ID: 6",
       .goodList [⟨5, "a", "r", "d", 1⟩, ⟨6, "b", "s", "e", 2⟩])) ∧
    (6 : Int) ∉ ([⟨5, "a", "r", "d", 1⟩] : List Employee).map Employee.id ∧
    (([⟨5, "a", "r", "d", 1⟩] : List Employee) = [] → (6 : Int) = 1) := by
  exact add_employee_fresh_id [⟨5, "a", "r", "d", 1⟩] "b" "s" "e" 2

/-- C2 counterexample: in `src/server.py`, `read_db` does not catch
parse errors, so `list()` on an unparsable backing file raises instead
of returning an empty sequence. -/
theorem list_employees_corrupt_raises :
    list_employees .corrupt = (.exn, .corrupt) ∧
    ∀ fs, list_employees .corrupt ≠ (.ok [], fs) := by
  refine ⟨rfl, ?_⟩
  intro fs h
  simp [list_employees, read_db] at h

/-- C2 (amended): only the `src/src/server.py` copy recovers from bad
backing content: when the file is unparsable or parses to a non-list
value, its `read_db` yields the empty collection and every operation
proceeds on that empty collection instead of failing — in particular
`list()` returns the empty sequence. -/
theorem read_db_v2_recovers (fs : FileContent)
    (h : fs = .corrupt ∨ fs = .emptyObject)
    (employee_id : Int) (name job_role department : String) (salary : Rat) :
    read_db_v2 fs = .ok [] ∧
    list_employees_v2 fs = (.ok [], fs) ∧
    get_employee_v2 fs employee_id =
      (.notFound s!"Error: Employee with ID {employee_id} not found.", fs) ∧
    add_employee_v2 fs name job_role department salary =
      (.ok "Employee added successfully with ID: 1",
       .goodList [⟨1, name, job_role, department, salary⟩]) ∧
    update_employee_v2 fs employee_id name job_role department salary =
      (.ok s!"Error: Employee with ID {employee_id} not found.", fs) ∧
    delete_employee_v2 fs employee_id =
      (.ok s!"Error: Employee with ID {employee_id} not found.", fs) ∧
    get_employee_ids_v2 fs = (.ok [], fs) := by
  rcases h with rfl | rfl <;> exact ⟨rfl, rfl, rfl, rfl, rfl, rfl, rfl⟩

/-- Witness for the amended C2 at the corrupt file state. -/
theorem read_db_v2_recovers_witness :
    read_db_v2 .corrupt = .ok [] ∧
    list_employees_v2 .corrupt = (.ok [], .corrupt) ∧
    get_employee_v2 .corrupt 7 =
      (.notFound "Error: Employee with ID 7 not found.", .corrupt) ∧
    add_employee_v2 .corrupt "Ana" "Engineer" "R&D" 95000 =
      (.ok "Employee added successfully with ID: 1",
       .goodList [⟨1, "Ana", "Engineer", "R&D", 95000⟩]) ∧
    update_employee_v2 .corrupt 7 "Ana" "Engineer" "R&D" 95000 =
      (.ok "Error: Employee with ID 7 not found.", .corrupt) ∧
    delete_employee_v2 .corrupt 7 =
      (.ok "Error: Employee with ID 7 not found.", .corrupt) ∧
    get_employee_ids_v2 .corrupt = (.ok [], .corrupt) := by
  exact read_db_v2_recovers .corrupt (Or.inl rfl) 7 "Ana" "Engineer" "R&D" 95000

/-- C3 counterexample: the two copies are not behaviourally equivalent
on every backing-file content — on a corrupt file, `src/server.py`'s
`list` raises while `src/src/server.py`'s returns the empty list. -/
theorem copies_disagree_on_corrupt :
    list_employees .corrupt = (.exn, .corrupt) ∧
    list_employees_v2 .corrupt = (.ok [], .corrupt) ∧
    list_employees .corrupt ≠ list_employees_v2 .corrupt := by
  refine ⟨rfl, rfl, ?_⟩
  intro h
  simp [list_employees, list_employees_v2, read_db, read_db_v2] at h

/-- C3 (amended): the two copies are behaviourally equivalent whenever
the backing file is absent or parses to a list of records: every
operation produces the same result and the same resulting file state
in both copies.  (They diverge on corrupt or non-list content, see the
counterexample.) -/
theorem copies_equivalent_on_wellformed (fs : FileContent)
    (h : fs = .absent ∨ ∃ l, fs = .goodList l)
    (employee_id : Int) (name job_role department : String) (salary : Rat) :
    add_employee fs name job_role department salary =
      add_employee_v2 fs name job_role department salary ∧
    get_employee fs employee_id = get_employee_v2 fs employee_id ∧
    update_employee fs employee_id name job_role department salary =
      update_employee_v2 fs employee_id name job_role department salary ∧
    delete_employee fs employee_id = delete_employee_v2 fs employee_id ∧
    list_employees fs = list_employees_v2 fs ∧
    get_employee_ids fs = get_employee_ids_v2 fs := by
  rcases h with rfl | ⟨l, rfl⟩
  · exact ⟨rfl, rfl, rfl, rfl, rfl, rfl⟩
  · refine ⟨rfl, rfl, rfl, rfl, rfl, ?_⟩
    simp [get_employee_ids, get_employee_ids_v2, read_db, read_db_v2,
      List.filter_true]

/-- Witness for the amended C3 on a one-record collection. -/
theorem copies_equivalent_on_wellformed_witness :
    add_employee (.goodList [⟨1, "a", "r", "d", 1⟩]) "b" "s" "e" 2 =
      add_employee_v2 (.goodList [⟨1, "a", "r", "d", 1⟩]) "b" "s" "e" 2 ∧
    get_employee (.goodList [⟨1, "a", "r", "d", 1⟩]) 1 =
      get_employee_v2 (.goodList [⟨1, "a", "r", "d", 1⟩]) 1 ∧
    update_employee (.goodList [⟨1, "a", "r", "d", 1⟩]) 1 "b" "s" "e" 2 =
      update_employee_v2 (.goodList [⟨1, "a", "r", "d", 1⟩]) 1 "b" "s" "e" 2 ∧
    delete_employee (.goodList [⟨1, "a", "r", "d", 1⟩]) 1 =
      delete_employee_v2 (.goodList [⟨1, "a", "r", "d", 1⟩]) 1 ∧
    list_employees (.goodList [⟨1, "a", "r", "d", 1⟩]) =
      list_employees_v2 (.goodList [⟨1, "a", "r", "d", 1⟩]) ∧
    get_employee_ids (.goodList [⟨1, "a", "r", "d", 1⟩]) =
      get_employee_ids_v2 (.goodList [⟨1, "a", "r", "d", 1⟩]) := by
  exact copies_equivalent_on_wellformed (.goodList [⟨1, "a", "r", "d", 1⟩])
    (Or.inr ⟨[⟨1, "a", "r", "d", 1⟩], rfl⟩) 1 "b" "s" "e" 2

/-- C5: for valid inputs (non-empty text fields, positive salary) and
any starting collection, `add_employee` followed by `get_employee` of
the returned id yields exactly the created record, whose four fields
match the inputs. -/
theorem create_then_read (db : List Employee)
    (name job_role department : String) (salary : Rat)
    (hn : name ≠ "") (hj : job_role ≠ "") (hd : department ≠ "")
    (hs : 0 < salary) :
    add_employee (.goodList db) name job_role department salary =
      (.ok s!"Employee added successfully with ID: {max_default0 (db.map Employee.id) + 1}",
       .goodList (db ++
         [⟨max_default0 (db.map Employee.id) + 1, name, job_role, department, salary⟩])) ∧
    get_employee
        (.goodList (db ++
          [⟨max_default0 (db.map Employee.id) + 1, name, job_role, department, salary⟩]))
        (max_default0 (db.map Employee.id) + 1) =
      (.found ⟨max_default0 (db.map Employee.id) + 1, name, job_role, department, salary⟩,
       .goodList (db ++
         [⟨max_default0 (db.map Employee.id) + 1, name, job_role, department, salary⟩])) := by
  refine ⟨rfl, ?_⟩
  have hnone :
      db.find? (fun e => e.id == max_default0 (db.map Employee.id) + 1) = none := by
    rw [List.find?_eq_none]
    intro e he hbeq
    have heq : e.id = max_default0 (db.map Employee.id) + 1 := by simpa using hbeq
    exact new_id_not_mem (db.map Employee.id)
      (heq ▸ List.mem_map_of_mem Employee.id he)
  simp [get_employee, read_db, get_employee_body, List.find?_append, hnone,
    List.find?]

/-- Witness for C5: creating Ana in the empty collection returns id 1
and reading id 1 yields exactly Ana's record. -/
theorem create_then_read_witness :
    (("Ana" : String) ≠ "" ∧ (0 : Rat) < 95000) ∧
    add_employee (.goodList []) "Ana" "Engineer" "R&D" 95000 =
      (.ok "Employee added successfully with ID: 1",
       .goodList [⟨1, "Ana", "Engineer", "R&D", 95000⟩]) ∧
    get_employee (.goodList [⟨1, "Ana", "Engineer", "R&D", 95000⟩]) 1 =
      (.found ⟨1, "Ana", "Engineer", "R&D", 95000⟩,
       .goodList [⟨1, "Ana", "Engineer", "R&D", 95000⟩]) := by
  refine ⟨⟨by decide, by norm_num⟩, ?_⟩
  exact create_then_read [] "Ana" "Engineer" "R&D" 95000
    (by decide) (by decide) (by decide) (by norm_num)

/-- If the record at index `k` satisfies the id predicate and all
earlier records fail it, then after replacing index `k` the search
finds exactly the replacement. -/
theorem find?_set_first (db : List Employee) (i : Int) (k : Nat)
    (hk : k < db.length) (e2 : Employee) (hid2 : e2.id = i)
    (hfirst : ∀ (m : Nat) (hm : m < db.length), m < k →
      (db.get ⟨m, hm⟩).id ≠ i) :
    (db.set k e2).find? (fun x => x.id == i) = some e2 := by
  rw [find_first_iff]
  have hlen : (db.set k e2).length = db.length := db.length_set k e2
  have hk2 : k < (db.set k e2).length := by rw [hlen]; exact hk
  refine ⟨k, hk2, ?_, by simp [hid2], ?_⟩
  · simp [List.get_eq_getElem, List.getElem_set_self]
  · intro m hm hmk
    have hm' : m < db.length := by rw [← hlen]; exact hm
    have hget : (db.set k e2).get ⟨m, hm⟩ = db.get ⟨m, hm'⟩ := by
      simp only [List.get_eq_getElem]
      exact List.getElem_set_ne (Nat.ne_of_gt hmk) _
    rw [hget]
    exact beq_eq_false_iff_ne.mpr (hfirst m hm' hmk)

/-- The `for` loop of `update_employee` finds the first matching index
`k` and replaces exactly that record's four mutable fields. -/
theorem update_body_spec (db : List Employee) (i : Int)
    (n j d : String) (s : Rat) (h : ∃ e ∈ db, e.id = i) :
    ∃ (k : Nat) (hk : k < db.length),
      (db.get ⟨k, hk⟩).id = i ∧
      (∀ (m : Nat) (hm : m < db.length), m < k → (db.get ⟨m, hm⟩).id ≠ i) ∧
      update_employee_body db i n j d s =
        (s!"Employee {i} updated successfully.",
         some (db.set k (updateFields (db.get ⟨k, hk⟩) n j d s))) := by
  induction db with
  | nil => simp at h
  | cons e rest ih =>
    by_cases he : e.id = i
    · refine ⟨0, Nat.succ_pos _, he, ?_, ?_⟩
      · intro m hm hmk
        exact absurd hmk (Nat.not_lt_zero m)
      · simp only [update_employee_body]
        rw [if_pos (by simpa using he)]
        rfl
    · obtain ⟨x, hx, hxi⟩ := h
      have h' : ∃ y ∈ rest, y.id = i := by
        rcases List.mem_cons.mp hx with rfl | hxr
        · exact absurd hxi he
        · exact ⟨x, hxr, hxi⟩
      obtain ⟨k, hk, hid, hfirst, heq⟩ := ih h'
      refine ⟨k + 1, Nat.succ_lt_succ hk, hid, ?_, ?_⟩
      · intro m hm hmk
        cases m with
        | zero => exact he
        | succ m' =>
          exact hfirst m' (Nat.lt_of_succ_lt_succ hm) (Nat.lt_of_succ_lt_succ hmk)
      · simp only [update_employee_body]
        rw [if_neg (by simpa using he), heq]
        rfl

/-- C6: when a record with the given id exists, `update_employee`
replaces exactly the four mutable fields of the first such record
(index `k`), preserves its id and every other record and the order,
persists the full collection, and a subsequent `get_employee` of that
id returns the updated record. -/
theorem update_employee_spec (db : List Employee) (employee_id : Int)
    (name job_role department : String) (salary : Rat)
    (h : ∃ e ∈ db, e.id = employee_id) :
    ∃ (k : Nat) (hk : k < db.length),
      (db.get ⟨k, hk⟩).id = employee_id ∧
      (∀ (m : Nat) (hm : m < db.length), m < k →
        (db.get ⟨m, hm⟩).id ≠ employee_id) ∧
      (updateFields (db.get ⟨k, hk⟩) name job_role department salary).id =
        (db.get ⟨k, hk⟩).id ∧
      update_employee (.goodList db) employee_id name job_role department salary =
        (.ok s!"Employee {employee_id} updated successfully.",
         .goodList (db.set k
           (updateFields (db.get ⟨k, hk⟩) name job_role department salary))) ∧
      get_employee
          (.goodList (db.set k
            (updateFields (db.get ⟨k, hk⟩) name job_role department salary)))
          employee_id =
        (.found (updateFields (db.get ⟨k, hk⟩) name job_role department salary),
         .goodList (db.set k
           (updateFields (db.get ⟨k, hk⟩) name job_role department salary))) := by
  obtain ⟨k, hk, hid, hfirst, heq⟩ :=
    update_body_spec db employee_id name job_role department salary h
  refine ⟨k, hk, hid, hfirst, rfl, ?_, ?_⟩
  · simp [update_employee, read_db, heq, write_db]
  · have hfind := find?_set_first db employee_id k hk
      (updateFields (db.get ⟨k, hk⟩) name job_role department salary) hid hfirst
    simp only [List.get_eq_getElem] at hfind
    simp [get_employee, read_db, get_employee_body, hfind]

/-- Witness for C6 on a one-record collection: the update rewrites the
four fields, keeps id 1, and reading id 1 afterward returns the new
values. -/
theorem update_employee_spec_witness :
    update_employee (.goodList [⟨1, "a", "r", "d", 1⟩]) 1 "b" "s" "e" 2 =
      (.ok "Employee 1 updated successfully.",
       .goodList [⟨1, "b", "s", "e", 2⟩]) ∧
    get_employee (.goodList [⟨1, "b", "s", "e", 2⟩]) 1 =
      (.found ⟨1, "b", "s", "e", 2⟩, .goodList [⟨1, "b", "s", "e", 2⟩]) := by
  obtain ⟨k, hk, hid, hfirst, hidkeep, hupd, hget⟩ :=
    update_employee_spec [⟨1, "a", "r", "d", 1⟩] 1 "b" "s" "e" 2
      ⟨⟨1, "a", "r", "d", 1⟩, List.mem_singleton_self _, rfl⟩
  have hk1 : k < 1 := by simpa using hk
  have hk0 : k = 0 := by omega
  subst hk0
  exact ⟨hupd, hget⟩

/-- C9: `get_employee` never modifies the file; it returns `found e`
exactly when `e` is the first record (linear scan order) whose id
matches; and it produces exactly the text
"Error: Employee with ID <id> not found." iff no record with that id
is present. -/
theorem get_employee_spec (db : List Employee) (employee_id : Int) :
    (get_employee (.goodList db) employee_id).2 = .goodList db ∧
    (∀ e : Employee,
      (get_employee (.goodList db) employee_id).1 = .found e ↔
        ∃ (k : Nat) (hk : k < db.length),
          db.get ⟨k, hk⟩ = e ∧ e.id = employee_id ∧
          ∀ (m : Nat) (hm : m < db.length), m < k →
            (db.get ⟨m, hm⟩).id ≠ employee_id) ∧
    ((get_employee (.goodList db) employee_id).1 =
        .notFound s!"Error: Employee with ID {employee_id} not found." ↔
      ∀ e ∈ db, e.id ≠ employee_id) := by
  refine ⟨rfl, ?_, ?_⟩
  · intro e
    constructor
    · intro hf
      cases hfind : db.find? (fun x => x.id == employee_id) with
      | none => simp [get_employee, read_db, get_employee_body, hfind] at hf
      | some e' =>
        have he' : e' = e := by
          simpa [get_employee, read_db, get_employee_body, hfind] using hf
        subst he'
        obtain ⟨k, hk, hget, hpe, hfirst⟩ := (find_first_iff _ db e').mp hfind
        exact ⟨k, hk, hget, by simpa using hpe,
          fun m hm hmk => by simpa using hfirst m hm hmk⟩
    · rintro ⟨k, hk, hget, hei, hfirst⟩
      have hfind : db.find? (fun x => x.id == employee_id) = some e :=
        (find_first_iff _ db e).mpr ⟨k, hk, hget, by simpa using hei,
          fun m hm hmk => by simpa using hfirst m hm hmk⟩
      simp [get_employee, read_db, get_employee_body, hfind]
  · constructor
    · intro hnf e he hei
      cases hfind : db.find? (fun x => x.id == employee_id) with
      | none =>
        rw [List.find?_eq_none] at hfind
        exact hfind e he (by simpa using hei)
      | some e' =>
        simp [get_employee, read_db, get_employee_body, hfind] at hnf
    · intro hall
      have hfind : db.find? (fun x => x.id == employee_id) = none := by
        rw [List.find?_eq_none]
        intro x hx hbeq
        exact hall x hx (by simpa using hbeq)
      simp [get_employee, read_db, get_employee_body, hfind]

/-- Witness for C9: on a one-record collection, reading id 1 finds the
record and reading id 2 produces exactly the not-found text. -/
theorem get_employee_spec_witness :
    (get_employee (.goodList [⟨1, "a", "r", "d", 1⟩]) 1).1 =
      .found ⟨1, "a", "r", "d", 1⟩ ∧
    (get_employee (.goodList [⟨1, "a", "r", "d", 1⟩]) 2).1 =
      .notFound "Error: Employee with ID 2 not found." := by
  constructor
  · exact ((get_employee_spec [⟨1, "a", "r", "d", 1⟩] 1).2.1
      ⟨1, "a", "r", "d", 1⟩).mpr
      ⟨0, by decide, rfl, rfl, fun m hm hmk => absurd hmk (Nat.not_lt_zero m)⟩
  · exact ((get_employee_spec [⟨1, "a", "r", "d", 1⟩] 2).2.2).mpr (by decide)

theorem length_filter_split {α : Type} (p : α → Bool) (l : List α) :
    (l.filter p).length + (l.filter (fun x => !(p x))).length = l.length := by
  induction l with
  | nil => rfl
  | cons x xs ih => cases hx : p x <;> simp [List.filter_cons, hx] <;> omega

/-- When no record has the given id, `delete_employee` fails with the
not-found message and writes nothing. -/
theorem delete_employee_not_found (db : List Employee) (i : Int)
    (h : ∀ e ∈ db, e.id ≠ i) :
    delete_employee (.goodList db) i =
      (.ok s!"Error: Employee with ID {i} not found.", .goodList db) := by
  have hfe : db.filter (fun e => e.id != i) = db :=
    List.filter_eq_self.mpr (fun a ha => by simp [h a ha])
  simp [delete_employee, read_db, delete_employee_body, hfe]

/-- On a collection with unique ids containing a match, the filter of
`delete_employee` equals erasing exactly the first matching index. -/
theorem delete_body_nodup_found (db : List Employee) (i : Int)
    (hnd : (db.map Employee.id).Nodup) (h : ∃ e ∈ db, e.id = i) :
    ∃ (k : Nat) (hk : k < db.length),
      (db.get ⟨k, hk⟩).id = i ∧
      db.filter (fun e => e.id != i) = db.eraseIdx k := by
  induction db with
  | nil => simp at h
  | cons e rest ih =>
    by_cases he : e.id = i
    · refine ⟨0, Nat.succ_pos _, he, ?_⟩
      have hnotin : e.id ∉ rest.map Employee.id := by
        simp only [List.map_cons, List.nodup_cons] at hnd
        exact hnd.1
      have hrest : ∀ x ∈ rest, x.id ≠ i := by
        intro x hx hxi
        exact hnotin (by rw [he, ← hxi]; exact List.mem_map_of_mem Employee.id hx)
      rw [List.filter_cons]
      rw [show (e.id != i) = false by simp [he]]
      simp only [Bool.false_eq_true, if_false]
      rw [List.filter_eq_self.mpr (fun a ha => by simp [hrest a ha])]
      rfl
    · obtain ⟨x, hx, hxi⟩ := h
      have h' : ∃ y ∈ rest, y.id = i := by
        rcases List.mem_cons.mp hx with rfl | hxr
        · exact absurd hxi he
        · exact ⟨x, hxr, hxi⟩
      have hnd' : (rest.map Employee.id).Nodup := by
        simp only [List.map_cons, List.nodup_cons] at hnd
        exact hnd.2
      obtain ⟨k, hk, hid, heq⟩ := ih hnd' h'
      refine ⟨k + 1, Nat.succ_lt_succ hk, hid, ?_⟩
      rw [List.filter_cons]
      rw [show (e.id != i) = true by simp [he]]
      simp only [if_true]
      rw [heq, List.eraseIdx_cons_succ]

/-- C7 counterexample: the claim quantifies over every collection
state, but with two records sharing id 1 a single delete removes both
records (final collection empty), not exactly one. -/
theorem delete_removes_two_counterexample :
    ([⟨1, "a", "r", "d", 1⟩, ⟨1, "b", "s", "e", 2⟩] : List Employee).length = 2 ∧
    delete_employee
        (.goodList [⟨1, "a", "r", "d", 1⟩, ⟨1, "b", "s", "e", 2⟩]) 1 =
      (.ok "Employee 1 deleted successfully.", .goodList []) := by
  constructor <;> rfl

/-- C7 (amended): on a collection whose ids are unique, delete of a
present id removes exactly the record at the first matching index and
leaves all others, including order, unchanged; a second delete of the
same id fails with the not-found message and removes nothing; and
delete of an absent id fails with the not-found message and removes
nothing. -/
theorem delete_employee_spec (db : List Employee) (employee_id : Int)
    (hnd : (db.map Employee.id).Nodup) :
    ((∃ e ∈ db, e.id = employee_id) →
      ∃ (k : Nat) (hk : k < db.length),
        (db.get ⟨k, hk⟩).id = employee_id ∧
        delete_employee (.goodList db) employee_id =
          (.ok s!"Employee {employee_id} deleted successfully.",
           .goodList (db.eraseIdx k)) ∧
        delete_employee (.goodList (db.eraseIdx k)) employee_id =
          (.ok s!"Error: Employee with ID {employee_id} not found.",
           .goodList (db.eraseIdx k))) ∧
    ((∀ e ∈ db, e.id ≠ employee_id) →
      delete_employee (.goodList db) employee_id =
        (.ok s!"Error: Employee with ID {employee_id} not found.",
         .goodList db)) := by
  constructor
  · intro h
    obtain ⟨k, hk, hid, heq⟩ := delete_body_nodup_found db employee_id hnd h
    have hne : ((db.eraseIdx k).length == db.length) = false := by
      rw [beq_eq_false_iff_ne, List.length_eraseIdx]
      simp only [hk, if_true]
      omega
    refine ⟨k, hk, hid, ?_, ?_⟩
    · simp [delete_employee, read_db, delete_employee_body, heq, hne, write_db]
    · apply delete_employee_not_found
      intro e he hei
      have hmem : e ∈ db.filter (fun x => x.id != employee_id) := by
        rw [heq]; exact he
      have hp := List.of_mem_filter hmem
      simp [hei] at hp
  · exact delete_employee_not_found db employee_id

/-- Witness for the amended C7: deleting id 1 from a two-record
collection with distinct ids removes exactly that record; deleting it
again fails with not-found and removes nothing. -/
theorem delete_employee_spec_witness :
    delete_employee
        (.goodList [⟨1, "a", "r", "d", 1⟩, ⟨2, "b", "s", "e", 2⟩]) 1 =
      (.ok "Employee 1 deleted successfully.",
       .goodList [⟨2, "b", "s", "e", 2⟩]) ∧
    delete_employee (.goodList [⟨2, "b", "s", "e", 2⟩]) 1 =
      (.ok "Error: Employee with ID 1 not found.",
       .goodList [⟨2, "b", "s", "e", 2⟩]) := by
  obtain ⟨hfound, -⟩ :=
    delete_employee_spec [⟨1, "a", "r", "d", 1⟩, ⟨2, "b", "s", "e", 2⟩] 1
      (by decide)
  obtain ⟨k, hk, hid, hdel, hsecond⟩ :=
    hfound ⟨⟨1, "a", "r", "d", 1⟩, by simp, rfl⟩
  have hk2 : k < 2 := by simpa using hk
  have hk0 : k = 0 := by
    by_contra h0
    have hk1 : k = 1 := by omega
    subst hk1
    have hgi : ([⟨1, "a", "r", "d", 1⟩, ⟨2, "b", "s", "e", 2⟩] :
        List Employee).get ⟨1, hk⟩ = ⟨2, "b", "s", "e", 2⟩ := rfl
    rw [hgi] at hid
    exact absurd hid (by decide)
  subst hk0
  exact ⟨hdel, hsecond⟩

/-- C10: if several records share the given id, one `delete_employee`
call removes every one of them (deletion filters the whole list) and
reports success. -/
theorem delete_employee_duplicates (db : List Employee) (employee_id : Int)
    (h : 2 ≤ (db.filter (fun e => e.id == employee_id)).length) :
    delete_employee (.goodList db) employee_id =
      (.ok s!"Employee {employee_id} deleted successfully.",
       .goodList (db.filter (fun e => e.id != employee_id))) ∧
    (∀ e ∈ db.filter (fun e => e.id != employee_id), e.id ≠ employee_id) ∧
    db.length - (db.filter (fun e => e.id != employee_id)).length =
      (db.filter (fun e => e.id == employee_id)).length := by
  have hsplit :
      (db.filter (fun e => e.id == employee_id)).length +
        (db.filter (fun e => e.id != employee_id)).length = db.length :=
    length_filter_split (fun e => e.id == employee_id) db
  have hne : ((db.filter (fun e => e.id != employee_id)).length == db.length)
      = false := by
    rw [beq_eq_false_iff_ne]
    omega
  refine ⟨?_, ?_, by omega⟩
  · simp [delete_employee, read_db, delete_employee_body, hne, write_db]
  · intro e he hei
    have hp := List.of_mem_filter he
    simp [hei] at hp

/-- Witness for C10: two records share id 1; a single delete empties
the collection and reports success. -/
theorem delete_employee_duplicates_witness :
    delete_employee
        (.goodList [⟨1, "a", "r", "d", 1⟩, ⟨1, "b", "s", "e", 2⟩]) 1 =
      (.ok "Employee 1 deleted successfully.", .goodList []) ∧
    (∀ e ∈ ([⟨1, "a", "r", "d", 1⟩, ⟨1, "b", "s", "e", 2⟩] : List Employee).filter
        (fun e => e.id != 1), e.id ≠ 1) ∧
    ([⟨1, "a", "r", "d", 1⟩, ⟨1, "b", "s", "e", 2⟩] : List Employee).length -
        (([⟨1, "a", "r", "d", 1⟩, ⟨1, "b", "s", "e", 2⟩] : List Employee).filter
          (fun e => e.id != 1)).length =
      (([⟨1, "a", "r", "d", 1⟩, ⟨1, "b", "s", "e", 2⟩] : List Employee).filter
        (fun e => e.id == 1)).length := by
  exact delete_employee_duplicates
    [⟨1, "a", "r", "d", 1⟩, ⟨1, "b", "s", "e", 2⟩] 1 (by decide)

/-- `update_employee` never changes the sequence of ids: whenever its
body writes a list, that list has the same ids in the same order. -/
theorem update_body_ids (db : List Employee) (i : Int)
    (n j d : String) (s : Rat) :
    ∀ es, (update_employee_body db i n j d s).2 = some es →
      es.map Employee.id = db.map Employee.id := by
  induction db with
  | nil =>
    intro es hes
    simp [update_employee_body] at hes
  | cons e rest ih =>
    intro es hes
    by_cases he : (e.id == i) = true
    · rw [update_employee_body, if_pos he] at hes
      simp only at hes
      injection hes with hes
      subst hes
      simp [updateFields]
    · rw [update_employee_body, if_neg he] at hes
      cases hrec : update_employee_body rest i n j d s with
      | mk msg orest =>
        rw [hrec] at hes
        cases orest with
        | none => simp at hes
        | some rest2 =>
          simp only at hes
          injection hes with hes
          subst hes
          simp only [List.map_cons]
          rw [ih rest2 (by rw [hrec])]

/-- C8: starting from a collection whose ids are unique, any single
operation leaves a collection whose ids are unique: every list that
add, update or delete passes to `write_db` has unique ids, and get,
list and the ids resource do not change the file at all. -/
theorem ids_unique_invariant (db : List Employee) (employee_id : Int)
    (name job_role department : String) (salary : Rat)
    (h : (db.map Employee.id).Nodup) :
    (((add_employee_body db name job_role department salary).2).map
      Employee.id).Nodup ∧
    (∀ es, (update_employee_body db employee_id name job_role department
        salary).2 = some es → (es.map Employee.id).Nodup) ∧
    (∀ es, (delete_employee_body db employee_id).2 = some es →
      (es.map Employee.id).Nodup) ∧
    (get_employee (.goodList db) employee_id).2 = .goodList db ∧
    (list_employees (.goodList db)).2 = .goodList db ∧
    (get_employee_ids (.goodList db)).2 = .goodList db := by
  refine ⟨?_, ?_, ?_, rfl, rfl, rfl⟩
  · have hfresh := new_id_not_mem (db.map Employee.id)
    show ((db ++ [Employee.mk (max_default0 (db.map Employee.id) + 1) name
      job_role department salary]).map Employee.id).Nodup
    rw [List.map_append, List.nodup_append]
    refine ⟨h, List.nodup_singleton _, ?_⟩
    intro a ha hb
    simp only [List.map_cons, List.map_nil, List.mem_singleton] at hb
    subst hb
    exact hfresh ha
  · intro es hes
    rw [update_body_ids db employee_id name job_role department salary es hes]
    exact h
  · intro es hes
    simp only [delete_employee_body] at hes
    by_cases hlen : ((db.filter (fun e => e.id != employee_id)).length ==
        db.length) = true
    · rw [if_pos hlen] at hes
      simp at hes
    · rw [if_neg hlen] at hes
      simp only [Option.some.injEq] at hes
      rw [← hes]
      exact List.Nodup.sublist
        (List.Sublist.map Employee.id (List.filter_sublist db)) h

/-- Witness for C8 on a concrete one-record collection with unique
ids. -/
theorem ids_unique_invariant_witness :
    (((add_employee_body [⟨1, "a", "r", "d", 1⟩] "b" "s" "e" 2).2).map
      Employee.id).Nodup ∧
    (∀ es, (update_employee_body [⟨1, "a", "r", "d", 1⟩] 1 "b" "s" "e"
        2).2 = some es → (es.map Employee.id).Nodup) ∧
    (∀ es, (delete_employee_body [⟨1, "a", "r", "d", 1⟩] 1).2 = some es →
      (es.map Employee.id).Nodup) ∧
    (get_employee (.goodList [⟨1, "a", "r", "d", 1⟩]) 1).2 =
      .goodList [⟨1, "a", "r", "d", 1⟩] ∧
    (list_employees (.goodList [⟨1, "a", "r", "d", 1⟩])).2 =
      .goodList [⟨1, "a", "r", "d", 1⟩] ∧
    (get_employee_ids (.goodList [⟨1, "a", "r", "d", 1⟩])).2 =
      .goodList [⟨1, "a", "r", "d", 1⟩] := by
  exact ids_unique_invariant [⟨1, "a", "r", "d", 1⟩] 1 "b" "s" "e" 2 (by decide)

end EmployeeServer
